import Mathlib

/-!
Verification development for the OpenSplat Gaussian-splat training core.

Each definition is a shallow embedding of the corresponding C++ entity:
machine floats that only carry exact decimal constants are modelled as
rationals, tensors/images as lists of rationals, fallible code as
`Except String`, and the stateful camera iterator / image cache as
explicit state passing.  Functions whose bodies live in translation units
outside the provided sources (model.cpp, utils.hpp, ssim.cpp, colmap.cpp)
are modelled from the specification and marked as such in their doc
comments.
-/

namespace OpenSplat

/-! ## Per-array learning rates (src/model.hpp, Model constructor, lines 63-71)

The constructor chooses each Adam optimizer's learning rate from the
`hasMeshConstraint` flag.  The C++ literals are exact decimals, so they are
embedded as the corresponding rationals. -/

/-- Embeds `double lr_means = (hasMeshConstraint)? 0.00000000001 : 0.00016;` -/
def lr_means (hasMeshConstraint : Bool) : ℚ :=
  if hasMeshConstraint then 1 / 100000000000 else 16 / 100000

/-- Embeds `double lr_quats = (hasMeshConstraint)? 0.00000000001 : 0.001;` -/
def lr_quats (hasMeshConstraint : Bool) : ℚ :=
  if hasMeshConstraint then 1 / 100000000000 else 1 / 1000

/-- Embeds `double lr_opacities = (hasMeshConstraint)? 0.00000000001 : 0.05;` -/
def lr_opacities (hasMeshConstraint : Bool) : ℚ :=
  if hasMeshConstraint then 1 / 100000000000 else 5 / 100

/-- Embeds `double lr_scales = (hasMeshConstraint)? 0.0000000001 : 0.005;` -/
def lr_scales (hasMeshConstraint : Bool) : ℚ :=
  if hasMeshConstraint then 1 / 10000000000 else 5 / 1000

/-- Embeds `double lr_fdc = (hasMeshConstraint)? 0.0025 : 0.0025;` -/
def lr_fdc (hasMeshConstraint : Bool) : ℚ :=
  if hasMeshConstraint then 25 / 10000 else 25 / 10000

/-- Embeds `double lr_frest = (hasMeshConstraint)? 0.000125 : 0.000125;` -/
def lr_frest (hasMeshConstraint : Bool) : ℚ :=
  if hasMeshConstraint then 125 / 1000000 else 125 / 1000000

/-- A learning rate is "near-zero" when it lies strictly below `10⁻⁶`;
every mesh-constrained frozen rate in the constructor is at most `10⁻¹⁰`
while every ordinary training rate is at least `1.25 · 10⁻⁴`, so this
threshold separates the two regimes cleanly. -/
def nearZero (x : ℚ) : Prop := x < 1 / 1000000

/-- C1 (counterexample): contrary to the claim, the opacity learning rate IS
driven to near-zero under mesh-constrained initialization: the constructor
sets it to `10⁻¹¹` (src/model.hpp line 65), below the near-zero threshold,
while the non-mesh-constrained opacity rate `0.05` is not near-zero. -/
theorem lr_opacities_meshConstrained_is_nearZero :
    nearZero (lr_opacities true) ∧ ¬ nearZero (lr_opacities false) := by
  constructor
  · show (1 : ℚ) / 100000000000 < 1 / 1000000
    norm_num
  · show ¬ ((5 : ℚ) / 100 < 1 / 1000000)
    norm_num

/-- C1 (amended): under mesh-constrained initialization the position, scale,
rotation AND opacity learning rates are all driven to near-zero, while the
two color (spherical-harmonics) learning rates keep their ordinary values
`0.0025` and `0.000125` and are not near-zero. -/
theorem meshConstrained_freezes_geometry_and_opacity :
    nearZero (lr_means true) ∧ nearZero (lr_scales true) ∧
    nearZero (lr_quats true) ∧ nearZero (lr_opacities true) ∧
    ¬ nearZero (lr_fdc true) ∧ ¬ nearZero (lr_frest true) ∧
    lr_fdc true = lr_fdc false ∧ lr_frest true = lr_frest false := by
  refine ⟨?_, ?_, ?_, ?_, ?_, ?_, rfl, rfl⟩ <;>
    simp only [lr_means, lr_scales, lr_quats, lr_opacities, lr_fdc, lr_frest,
      nearZero, if_true] <;> norm_num

/-! ## Loss handling in the training loop (src/opensplat.cpp, main, lines 163-174)

A float value is modelled with explicit NaN/Inf tags so that the control
flow's (in)dependence on finiteness can be stated.  The loop body extracts
`steploss`, appends it to `lossesByCamera[cam.idx]`, optionally prints it
(`step % displayStep == 0`), and then unconditionally proceeds to the
optimizer/scheduler/afterTrain calls and the next iteration: no branch in
`main` inspects the loss for NaN or Inf. -/

/-- A C++ `float` value, with non-finite values tagged explicitly. -/
inductive FloatV where
  | finite (q : ℚ)
  | nan
  | inf
deriving DecidableEq, Repr

/-- What the training loop does after computing a step's loss: continue to
the next step, or abort the run. -/
inductive StepControl where
  | continueRun
  | abortRun
deriving DecidableEq, Repr

/-- The loss-related mutable state of `main`'s training loop: the per-camera
loss lists and (as an observation of the side effect) the sequence of
losses printed to stdout. -/
structure LossState where
  lossesByCamera : List (List FloatV)
  printed : List FloatV
deriving DecidableEq, Repr

/-- Replace the `i`-th entry of a list by `f` applied to it (the embedding of
`lossesByCamera[cam.idx].push_back(...)`). -/
def updateNth (l : List (List FloatV)) (i : ℕ) (f : List FloatV → List FloatV) :
    List (List FloatV) :=
  l.mapIdx (fun j x => if j = i then f x else x)

/-- The loss-handling tail of the training-loop body
(src/opensplat.cpp lines 165-174): record `steploss` for the chosen camera,
print it when `step % displayStep == 0`, and continue.  `main` contains no
finiteness test, so the returned control is `continueRun` unconditionally. -/
def lossHandling (displayStep step camIdx : ℕ) (steploss : FloatV)
    (st : LossState) : LossState × StepControl :=
  let st1 : LossState :=
    { st with lossesByCamera := updateNth st.lossesByCamera camIdx (fun l => l ++ [steploss]) }
  let st2 : LossState :=
    if step % displayStep = 0 then { st1 with printed := st1.printed ++ [steploss] } else st1
  (st2, StepControl.continueRun)

/-- C2: the training loop performs no NaN/Inf detection — for every step,
including one whose loss is `NaN` or `Inf`, the loss-handling code records
the loss and returns control `continueRun`; no abort path exists in the
loop body.  (The claim, and spec §7, require a fatal abort here.) -/
theorem trainLoop_lossHandling_never_aborts :
    ∀ (displayStep step camIdx : ℕ) (steploss : FloatV) (st : LossState),
      (lossHandling displayStep step camIdx steploss st).2 = StepControl.continueRun ∧
      (lossHandling displayStep step camIdx FloatV.nan st).2 =
        (lossHandling displayStep step camIdx (FloatV.finite 0) st).2 := by
  intro displayStep step camIdx steploss st
  constructor <;> simp [lossHandling]

/-! ## Resolution schedule (Model::getDownscaleFactor; model.cpp is not in src/)

Modelled from the spec: "Downscale factor: start at 2^numDownscales, halve
every `resolutionSchedule` steps, floor at 1."  `model.cpp`, which holds the
body of `Model::getDownscaleFactor` declared at src/model.hpp line 105, is
not among the provided sources. -/

/-- Modelled from the spec: the image downscale factor as a pure function of
the step number — start at `2 ^ numDownscales`, halve every
`resolutionSchedule` steps, floor at 1. -/
def getDownscaleFactor (numDownscales resolutionSchedule step : ℕ) : ℕ :=
  max (2 ^ numDownscales / 2 ^ (step / resolutionSchedule)) 1

/-- For any halving count `k`, flooring the halved power at 1 is the same as
truncated subtraction in the exponent. -/
theorem max_pow_div_one (a b : ℕ) : max (2 ^ a / 2 ^ b) 1 = 2 ^ (a - b) := by
  rcases le_or_lt b a with h | h
  · rw [Nat.pow_div h (by norm_num)]
    exact max_eq_left (Nat.one_le_two_pow)
  · rw [Nat.div_eq_of_lt (Nat.pow_lt_pow_right (by norm_num) h)]
    simp [Nat.sub_eq_zero_of_le h.le]

/-- C4: with a positive `resolutionSchedule`, the downscale factor equals
`2 ^ (numDownscales - step / resolutionSchedule)` (truncated subtraction)
at every step; hence it starts at `2 ^ numDownscales`, is at least 1
everywhere, exactly halves after each further `resolutionSchedule` steps
while above 1, and equals exactly 1 for every
`step ≥ resolutionSchedule * numDownscales`. -/
theorem getDownscaleFactor_schedule (numDownscales resolutionSchedule : ℕ)
    (hrs : 0 < resolutionSchedule) :
    getDownscaleFactor numDownscales resolutionSchedule 0 = 2 ^ numDownscales ∧
    (∀ step, getDownscaleFactor numDownscales resolutionSchedule step =
      2 ^ (numDownscales - step / resolutionSchedule)) ∧
    (∀ step, 1 ≤ getDownscaleFactor numDownscales resolutionSchedule step) ∧
    (∀ step, step / resolutionSchedule < numDownscales →
      getDownscaleFactor numDownscales resolutionSchedule (step + resolutionSchedule) * 2 =
        getDownscaleFactor numDownscales resolutionSchedule step) ∧
    (∀ step, resolutionSchedule * numDownscales ≤ step →
      getDownscaleFactor numDownscales resolutionSchedule step = 1) := by
  have hpow : ∀ step, getDownscaleFactor numDownscales resolutionSchedule step =
      2 ^ (numDownscales - step / resolutionSchedule) := by
    intro step
    exact max_pow_div_one numDownscales (step / resolutionSchedule)
  refine ⟨?_, hpow, ?_, ?_, ?_⟩
  · rw [hpow 0, Nat.zero_div, Nat.sub_zero]
  · intro step
    rw [hpow step]
    exact Nat.one_le_two_pow
  · intro step hlt
    rw [hpow step, hpow (step + resolutionSchedule),
      Nat.add_div_right step hrs]
    rw [← pow_succ]
    congr 1
    omega
  · intro step hge
    rw [hpow step]
    have : numDownscales ≤ step / resolutionSchedule :=
      (Nat.le_div_iff_mul_le hrs).mpr (by rwa [Nat.mul_comm] at hge)
    simp [Nat.sub_eq_zero_of_le this]

/-- C4 witness: at `numDownscales = 2`, `resolutionSchedule = 3` the schedule
starts at 4 and is 1 from step 6 on. -/
theorem getDownscaleFactor_schedule_witness :
    0 < 3 ∧ getDownscaleFactor 2 3 0 = 2 ^ 2 ∧ getDownscaleFactor 2 3 6 = 1 := by
  refine ⟨by norm_num, (getDownscaleFactor_schedule 2 3 (by norm_num)).1, ?_⟩
  exact (getDownscaleFactor_schedule 2 3 (by norm_num)).2.2.2.2 6 (by norm_num)

/-! ## Loss engine (Model::mainLoss; model.cpp is not in src/)

src/model.hpp declares `mainLoss` (line 109) and the constructor builds the
structural-similarity helper as `ssim(11, 3)` (line 33).  The body of
`Model::mainLoss` lives in model.cpp, which is not among the provided
sources, so it is modelled from the spec; the SSIM window computation
itself (ssim.cpp) is likewise external and is abstracted as a function
argument. -/

/-- The structural-similarity helper object of the model, as constructed in
src/model.hpp line 33: `ssim(11, 3)` — window size 11, channel count 3. -/
structure SSIM where
  windowSize : ℕ
  channels : ℕ
deriving DecidableEq, Repr

/-- The `SSIM` member initialized by the `Model` constructor
(src/model.hpp line 33). -/
def modelSSIM : SSIM := ⟨11, 3⟩

/-- Mean absolute pixel difference of two same-shaped images, each flattened
to its list of scalar entries: `torch::abs(gt - rendered).mean()`. -/
def meanAbsoluteError (rendered gt : List ℚ) : ℚ :=
  ((List.zip rendered gt).map (fun p => |p.1 - p.2|)).sum / rendered.length

/-- Modelled from the spec: `Model::mainLoss` (model.cpp is not in src/) —
`loss = (1 - ssimWeight) * meanAbsoluteError + ssimWeight * (1 - ssim)`,
where `structuralSimilarity` stands for the external Gaussian-window SSIM
computation. -/
def mainLoss (structuralSimilarity : List ℚ → List ℚ → ℚ)
    (rendered gt : List ℚ) (ssimWeight : ℚ) : ℚ :=
  (1 - ssimWeight) * meanAbsoluteError rendered gt +
    ssimWeight * (1 - structuralSimilarity rendered gt)

/-- C5: for every rendered/ground-truth pair and every weight, the loss is
the stated affine combination of mean absolute error and one-minus-SSIM;
with `ssimWeight = 0` it collapses exactly to the mean absolute pixel
difference; and the SSIM helper the model constructs uses window size 11
with 3 channels. -/
theorem mainLoss_formula :
    (∀ (s : List ℚ → List ℚ → ℚ) (rendered gt : List ℚ) (w : ℚ),
      mainLoss s rendered gt w =
        (1 - w) * meanAbsoluteError rendered gt + w * (1 - s rendered gt)) ∧
    (∀ (s : List ℚ → List ℚ → ℚ) (rendered gt : List ℚ),
      mainLoss s rendered gt 0 = meanAbsoluteError rendered gt) ∧
    modelSSIM.windowSize = 11 ∧ modelSSIM.channels = 3 := by
  refine ⟨fun s rendered gt w => rfl, fun s rendered gt => ?_, rfl, rfl⟩
  simp [mainLoss]

/-! ## Ground-truth image cache (src/input_data.cpp, Camera::getImage, lines 180-198)

Images are abstract payloads; the OpenCV resize round-trip
(`tensorToImage` / `cv::resize` / `imageToTensor`) is an external
deterministic function and is passed as the `downscaleImg` argument.  The
`imagePyramids` map is embedded as an association list keyed by the
integer downscale factor. -/

/-- An image tensor, abstracted to its flattened pixel payload. -/
structure Img where
  data : List ℚ
deriving DecidableEq, Repr

/-- Association-list lookup embedding the `std::unordered_map<int, torch::Tensor>` pyramid cache. -/
def lookupPyramid : List (ℤ × Img) → ℤ → Option Img
  | [], _ => none
  | (k, t) :: rest, d => if k = d then some t else lookupPyramid rest d

/-- The image-cache state of one `Camera`: the full-resolution image and the
`imagePyramids` cache. -/
structure CameraImageState where
  image : Img
  imagePyramids : List (ℤ × Img)
deriving DecidableEq, Repr

/-- Embedding of `Camera::getImage` (src/input_data.cpp lines 180-198):
`downscaleFactor <= 1` returns the full image; otherwise the pyramid cache
is consulted, and on a miss the downscaled image is computed, stored and
returned.  Returns the resulting tensor together with the updated camera
state. -/
def getImage (downscaleImg : Img → ℤ → Img) (c : CameraImageState)
    (downscaleFactor : ℤ) : Img × CameraImageState :=
  if downscaleFactor ≤ 1 then (c.image, c)
  else
    match lookupPyramid c.imagePyramids downscaleFactor with
    | some t => (t, c)
    | none =>
      let t := downscaleImg c.image downscaleFactor
      (t, ⟨c.image, (downscaleFactor, t) :: c.imagePyramids⟩)

/-- C9: `getImage` with factor ≤ 1 returns the full-resolution image and
leaves the camera untouched; with factor > 1 a cache miss computes and
stores the downscaled image, and a second call with the same factor
returns exactly the tensor stored by the first call without further state
change — so two consecutive calls with the same factor agree. -/
theorem getImage_cache (downscaleImg : Img → ℤ → Img)
    (c : CameraImageState) (d : ℤ) :
    (d ≤ 1 → getImage downscaleImg c d = (c.image, c)) ∧
    (1 < d → lookupPyramid c.imagePyramids d = none →
      getImage downscaleImg c d =
        (downscaleImg c.image d,
         ⟨c.image, (d, downscaleImg c.image d) :: c.imagePyramids⟩)) ∧
    (1 < d →
      getImage downscaleImg (getImage downscaleImg c d).2 d =
        ((getImage downscaleImg c d).1, (getImage downscaleImg c d).2)) := by
  refine ⟨?_, ?_, ?_⟩
  · intro hle
    simp [getImage, hle]
  · intro hgt hnone
    simp [getImage, not_le.mpr hgt, hnone]
  · intro hgt
    have hnle : ¬ d ≤ 1 := not_le.mpr hgt
    rcases hmem : lookupPyramid c.imagePyramids d with _ | t
    · simp [getImage, hnle, hmem, lookupPyramid]
    · simp [getImage, hnle, hmem]

/-- C9 witness: a concrete camera with one pixel — a first downscale-by-2
call stores the result and a second call returns it unchanged; factor 1
returns the original image. -/
theorem getImage_cache_witness :
    ((1 : ℤ) ≤ 1 ∧
      getImage (fun i _ => ⟨i.data.map (fun q => q / 4)⟩) ⟨⟨[8]⟩, []⟩ 1 =
        (⟨[8]⟩, ⟨⟨[8]⟩, []⟩)) ∧
    ((1 : ℤ) < 2 ∧
      getImage (fun i _ => ⟨i.data.map (fun q => q / 4)⟩)
          (getImage (fun i _ => ⟨i.data.map (fun q => q / 4)⟩) ⟨⟨[8]⟩, []⟩ 2).2 2 =
        ((getImage (fun i _ => ⟨i.data.map (fun q => q / 4)⟩) ⟨⟨[8]⟩, []⟩ 2).1,
         (getImage (fun i _ => ⟨i.data.map (fun q => q / 4)⟩) ⟨⟨[8]⟩, []⟩ 2).2)) := by
  constructor
  · exact ⟨le_refl 1,
      (getImage_cache (fun i _ => ⟨i.data.map (fun q => q / 4)⟩) ⟨⟨[8]⟩, []⟩ 1).1 (le_refl 1)⟩
  · exact ⟨by norm_num,
      (getImage_cache (fun i _ => ⟨i.data.map (fun q => q / 4)⟩) ⟨⟨[8]⟩, []⟩ 2).2.2 (by norm_num)⟩

/-! ## Camera withholding (src/input_data.cpp, InputData::getCameras, lines 209-237)

A camera is embedded by the field the selection logic reads: its file
path.  `fs::path(p).filename()` is embedded as the last `/`-separated
component of the path string.  The deterministic-but-unspecified
`std::rand() % cameras.size()` draw of the `"random"` branch is passed in
as `randVal`. -/

/-- One input camera, reduced to the field `getCameras` inspects. -/
structure Cam where
  filePath : String
deriving DecidableEq, Repr

/-- Embeds `fs::path(p).filename()`: the component after the last `/`, computed by
a character fold that restarts the accumulator at every separator. -/
def filenameOf (p : String) : String :=
  String.mk (p.data.foldl (fun acc ch => if ch = '/' then [] else acc ++ [ch]) [])

/-- The withholding loop of `getCameras` (src/input_data.cpp lines 230-233):
push every camera whose running index differs from `valIdx`, starting the
index at `i`. -/
def withholdLoop (valIdx : ℕ) : ℕ → List Cam → List Cam
  | _, [] => []
  | i, c :: rest =>
    if i = valIdx then withholdLoop valIdx (i + 1) rest
    else c :: withholdLoop valIdx (i + 1) rest

/-- Embedding of `InputData::getCameras` (src/input_data.cpp lines 209-237):
without validation all cameras are returned and no camera is withheld;
with validation the index comes from `randVal % size` for `"random"` or
from the first filename match, a missing named match raises the
`runtime_error`, and otherwise the matched camera is withheld from the
returned training list. -/
def getCameras (randVal : ℕ) (validate : Bool) (valImage : String)
    (cameras : List Cam) : Except String (List Cam × Option Cam) :=
  if validate = false then Except.ok (cameras, none)
  else
    match (if valImage = "random" then some (randVal % cameras.length)
           else cameras.findIdx? (fun c => filenameOf c.filePath == valImage)) with
    | none => Except.error (valImage ++ " not in the list of cameras")
    | some valIdx => Except.ok (withholdLoop valIdx 0 cameras, cameras.get? valIdx)

/-- Once the running index has passed `valIdx`, the withholding loop keeps
every remaining camera. -/
theorem withholdLoop_of_lt (valIdx : ℕ) :
    ∀ (l : List Cam) (i : ℕ), valIdx < i → withholdLoop valIdx i l = l := by
  intro l
  induction l with
  | nil => intro i _; rfl
  | cons c rest ih =>
    intro i hlt
    have hne : i ≠ valIdx := by omega
    simp [withholdLoop, hne, ih (i + 1) (by omega)]

/-- The withholding loop started at index `i` removes the entry at offset
`valIdx - i` (and removes nothing when `valIdx` was already passed). -/
theorem withholdLoop_eq_eraseIdx (valIdx : ℕ) :
    ∀ (l : List Cam) (i : ℕ), i ≤ valIdx →
      withholdLoop valIdx i l = l.eraseIdx (valIdx - i) := by
  intro l
  induction l with
  | nil => intro i _; simp [withholdLoop]
  | cons c rest ih =>
    intro i hle
    by_cases hi : i = valIdx
    · subst hi
      have h2 : withholdLoop i (i + 1) rest = rest :=
        withholdLoop_of_lt i rest (i + 1) (by omega)
      simp [withholdLoop, h2]
    · have hlt : i < valIdx := lt_of_le_of_ne hle hi
      have hsub : valIdx - i = (valIdx - (i + 1)) + 1 := by omega
      simp [withholdLoop, hi, ih (i + 1) hlt, hsub, List.eraseIdx]

/-! ### The surrounding run (src/opensplat.cpp, main)

`main` loads the input data, withholds the optional validation camera,
runs `numIters` training steps, saves the scene, and finally — only when a
camera was withheld — performs a single render-plus-loss evaluation
against that camera (lines 211-215).  The run's observable phases are
embedded as an event list, and the error-propagating structure of `main`
as an `Except`-valued pipeline. -/

/-- The observable phases of `main` after input loading. -/
inductive MainEvent where
  | trainStep (step : ℕ)
  | saveScene
  | validateCam (c : Cam)
deriving DecidableEq, Repr

/-- Is an event the final validation evaluation? -/
def isValidateEvent : MainEvent → Bool
  | MainEvent.validateCam _ => true
  | _ => false

/-- The event sequence of a successful run of `main`
(src/opensplat.cpp lines 132-215): steps `1..numIters`, the final scene
save, then — exactly when a validation camera was withheld — one
validation evaluation against it. -/
def mainEvents (numIters : ℕ) (valCam : Option Cam) : List MainEvent :=
  ((List.range numIters).map (fun k => MainEvent.trainStep (k + 1))) ++
    [MainEvent.saveScene] ++
    (match valCam with
     | none => []
     | some c => [MainEvent.validateCam c])

/-- The data holding, among the loaded input, what the camera logic reads. -/
structure InputDataM where
  cameras : List Cam
deriving DecidableEq, Repr

/-- The error-propagating skeleton of `main` (src/opensplat.cpp lines
102-219): input loading runs first, then `getCameras`, and only then the
training loop and the optional validation; any thrown `runtime_error` is
caught at the bottom of `main` and ends the run before any later phase. -/
def mainRun (inputLoad : Except String InputDataM) (randVal : ℕ)
    (validate : Bool) (valImage : String) (numIters : ℕ) :
    Except String (List MainEvent) :=
  match inputLoad with
  | Except.error e => Except.error e
  | Except.ok d =>
    match getCameras randVal validate valImage d.cameras with
    | Except.error e => Except.error e
    | Except.ok (_, valCam) => Except.ok (mainEvents numIters valCam)

/-- How many training steps a (possibly aborted) run executed. -/
def trainStepsExecuted : Except String (List MainEvent) → ℕ
  | Except.error _ => 0
  | Except.ok evts => (evts.filter (fun e => !isValidateEvent e && e ≠ MainEvent.saveScene)).length

/-- C6: when validation withholds a camera — the named camera found at
index `i`, or in `"random"` mode (the CLI default) the camera drawn at
index `randVal % size` — the
returned training list is the full list with exactly that camera removed
(relative order preserved, i.e. `eraseIdx i`) and the withheld camera is
returned alongside; the run's event list then ends with exactly one
validation evaluation against the withheld camera, placed after all
training steps; with validation off, all cameras are returned and no
validation event occurs. -/
theorem getCameras_withhold_single_validation (randVal numIters : ℕ)
    (valImage : String) (cameras : List Cam) (i : ℕ) :
    (valImage ≠ "random" →
      cameras.findIdx? (fun c => filenameOf c.filePath == valImage) = some i →
      getCameras randVal true valImage cameras =
        Except.ok (cameras.eraseIdx i, cameras.get? i)) ∧
    (valImage = "random" → 0 < cameras.length →
      getCameras randVal true valImage cameras =
        Except.ok (cameras.eraseIdx (randVal % cameras.length),
          cameras.get? (randVal % cameras.length))) ∧
    (∀ c : Cam,
      mainEvents numIters (some c) = mainEvents numIters none ++ [MainEvent.validateCam c] ∧
      (mainEvents numIters (some c)).filter isValidateEvent = [MainEvent.validateCam c]) ∧
    (getCameras randVal false valImage cameras = Except.ok (cameras, none) ∧
      (mainEvents numIters none).filter isValidateEvent = []) := by
  have htrain : ((List.range numIters).map
      (fun k => MainEvent.trainStep (k + 1))).filter isValidateEvent = [] := by
    refine List.filter_eq_nil_iff.mpr ?_
    intro a ha
    rcases List.mem_map.mp ha with ⟨k, _, hk⟩
    subst hk
    simp [isValidateEvent]
  refine ⟨?_, ?_, ?_, ?_, ?_⟩
  · intro hval hfind
    simp [getCameras, hval, hfind,
      withholdLoop_eq_eraseIdx i cameras 0 (Nat.zero_le i)]
  · intro hrand _
    subst hrand
    simp [getCameras,
      withholdLoop_eq_eraseIdx (randVal % cameras.length) cameras 0 (Nat.zero_le _)]
  · intro c
    constructor
    · simp [mainEvents]
    · simp [mainEvents, List.filter_append, htrain, isValidateEvent]
  · simp [getCameras]
  · simp [mainEvents, List.filter_append, htrain, isValidateEvent]

/-- C6 witness: with two cameras and `valImage = "img2.png"`, the second
camera is withheld (training list keeps only the first, order preserved);
in `"random"` mode with draw 5 over the same two cameras the camera at
index `5 % 2 = 1` is withheld; and the post-training event stream carries
exactly one validation event against the withheld camera. -/
theorem getCameras_withhold_single_validation_witness :
    ("img2.png" ≠ "random" ∧
      [Cam.mk ("a/img1.png"), Cam.mk ("a/img2.png")].findIdx?
        (fun c => filenameOf c.filePath == "img2.png") = some 1) ∧
    getCameras 0 true ("img2.png") [Cam.mk ("a/img1.png"), Cam.mk ("a/img2.png")] =
      Except.ok ([Cam.mk ("a/img1.png")], some (Cam.mk ("a/img2.png"))) ∧
    (0 < 2 ∧
      getCameras 5 true ("random") [Cam.mk ("a/img1.png"), Cam.mk ("a/img2.png")] =
        Except.ok ([Cam.mk ("a/img1.png")], some (Cam.mk ("a/img2.png")))) ∧
    (mainEvents 2 (some (Cam.mk ("a/img2.png")))).filter isValidateEvent =
      [MainEvent.validateCam (Cam.mk ("a/img2.png"))] := by
  have hfind : [Cam.mk ("a/img1.png"), Cam.mk ("a/img2.png")].findIdx?
      (fun c => filenameOf c.filePath == "img2.png") = some 1 := by
    decide
  refine ⟨⟨by decide, hfind⟩, ?_, ⟨by norm_num, ?_⟩, ?_⟩
  · have h := (getCameras_withhold_single_validation 0 2 ("img2.png")
      [Cam.mk ("a/img1.png"), Cam.mk ("a/img2.png")] 1).1 (by decide) hfind
    rw [h]
    rfl
  · have h := (getCameras_withhold_single_validation 5 2 ("random")
      [Cam.mk ("a/img1.png"), Cam.mk ("a/img2.png")] 1).2.1 rfl (by norm_num)
    rw [h]
    rfl
  · exact ((getCameras_withhold_single_validation 0 2 ("img2.png")
      [Cam.mk ("a/img1.png"), Cam.mk ("a/img2.png")] 1).2.2.1 (Cam.mk ("a/img2.png"))).2

/-- C7: a named validation image matching no camera makes `getCameras`
throw the `runtime_error` naming that image, and the whole run aborts with
that message before executing a single training step. -/
theorem getCameras_missing_valImage_aborts (randVal numIters : ℕ)
    (valImage : String) (d : InputDataM)
    (hval : valImage ≠ "random")
    (hnone : d.cameras.findIdx? (fun c => filenameOf c.filePath == valImage) = none) :
    getCameras randVal true valImage d.cameras =
      Except.error (valImage ++ " not in the list of cameras") ∧
    mainRun (Except.ok d) randVal true valImage numIters =
      Except.error (valImage ++ " not in the list of cameras") ∧
    trainStepsExecuted (mainRun (Except.ok d) randVal true valImage numIters) = 0 := by
  have hcam : getCameras randVal true valImage d.cameras =
      Except.error (valImage ++ " not in the list of cameras") := by
    simp [getCameras, hval, hnone]
  refine ⟨hcam, ?_, ?_⟩
  · simp [mainRun, hcam]
  · simp [mainRun, hcam, trainStepsExecuted]

/-- C7 witness: requesting validation image `"missing.png"` against a
one-camera project aborts with the descriptive message and zero training
steps executed. -/
theorem getCameras_missing_valImage_aborts_witness :
    ("missing.png" ≠ "random" ∧
      (InputDataM.mk [Cam.mk ("a/img1.png")]).cameras.findIdx?
        (fun c => filenameOf c.filePath == "missing.png") = none) ∧
    mainRun (Except.ok (InputDataM.mk [Cam.mk ("a/img1.png")])) 0 true ("missing.png") 5 =
      Except.error ("missing.png" ++ " not in the list of cameras") ∧
    trainStepsExecuted
      (mainRun (Except.ok (InputDataM.mk [Cam.mk ("a/img1.png")])) 0 true ("missing.png") 5) = 0 := by
  have h := getCameras_missing_valImage_aborts 0 5 ("missing.png")
    (InputDataM.mk [Cam.mk ("a/img1.png")]) (by decide) (by decide)
  exact ⟨⟨by decide, by decide⟩, h.2.1, h.2.2⟩

/-! ## Camera selection iterator (InfiniteRandomIterator; utils.hpp is not in src/)

src/opensplat.cpp lines 124-126 build
`InfiniteRandomIterator<size_t> camsIter(camIndices)` over the indices
`0..cams.size()-1` and line 134 draws `camsIter.next()` once per training
step.  The class itself lives in utils.hpp, which is not among the
provided sources, so it is modelled from the spec: "a stateful sequence
generator producing a lazy, restartable, finite-per-epoch/infinite-overall
sequence of indices; reshuffle deterministically or not per policy, but
guarantee every index appears exactly once before any repeats within an
epoch" (§9), "round-robin over a reshuffled-each-epoch random permutation
of all training cameras" (§4.7).  The pseudo-random shuffle is abstracted
as a function assumed to permute its input. -/

/-- Modelled from the spec: the state of the camera iterator — the current
epoch's shuffled index sequence and the cursor into it. -/
structure IRIter where
  v : List ℕ
  i : ℕ
deriving DecidableEq, Repr

/-- Modelled from the spec: construction shuffles the index vector and
starts the cursor at 0. -/
def mkIter (shuffle : List ℕ → List ℕ) (v : List ℕ) : IRIter :=
  ⟨shuffle v, 0⟩

/-- Modelled from the spec: `next()` returns the element under the cursor
and advances it; when the epoch is exhausted the vector is reshuffled and
the cursor reset. -/
def iterNext (shuffle : List ℕ → List ℕ) (it : IRIter) : ℕ × IRIter :=
  let ret := it.v.getD it.i 0
  if it.v.length ≤ it.i + 1 then (ret, ⟨shuffle it.v, 0⟩)
  else (ret, ⟨it.v, it.i + 1⟩)

/-- Draw `k` successive selections from the iterator, returning them in
order together with the final state. -/
def runIter (shuffle : List ℕ → List ℕ) : IRIter → ℕ → List ℕ × IRIter
  | it, 0 => ([], it)
  | it, k + 1 =>
    let r1 := iterNext shuffle it
    let r2 := runIter shuffle r1.2 k
    (r1.1 :: r2.1, r2.2)

/-- The first `m` camera selections of the training loop, drawn from the
iterator constructed over `v`. -/
def camSelections (shuffle : List ℕ → List ℕ) (v : List ℕ) (m : ℕ) : List ℕ :=
  (runIter shuffle (mkIter shuffle v) m).1

/-- Drawing `a + b` selections is drawing `a` and then `b` more from the
reached state. -/
theorem runIter_add (shuffle : List ℕ → List ℕ) :
    ∀ (a b : ℕ) (it : IRIter),
      runIter shuffle it (a + b) =
        ((runIter shuffle it a).1 ++ (runIter shuffle (runIter shuffle it a).2 b).1,
         (runIter shuffle (runIter shuffle it a).2 b).2) := by
  intro a
  induction a with
  | zero => intro b it; simp [runIter]
  | succ a ih =>
    intro b it
    have h1 : a + 1 + b = (a + b) + 1 := by omega
    rw [h1]
    simp only [runIter]
    rw [ih b (iterNext shuffle it).2]
    simp

/-- Exactly `k` selections are produced by drawing `k` times. -/
theorem runIter_length (shuffle : List ℕ → List ℕ) :
    ∀ (k : ℕ) (it : IRIter), (runIter shuffle it k).1.length = k := by
  intro k
  induction k with
  | zero => intro it; rfl
  | succ k ih => intro it; simp [runIter, ih]

/-- Running the iterator from cursor `i` to the end of the epoch emits the
remaining suffix of the current vector and leaves a freshly reshuffled
state. -/
theorem runIter_epoch (shuffle : List ℕ → List ℕ) :
    ∀ (k : ℕ) (v : List ℕ) (i : ℕ), i < v.length → i + k = v.length →
      runIter shuffle ⟨v, i⟩ k = (v.drop i, ⟨shuffle v, 0⟩) := by
  intro k
  induction k with
  | zero => intro v i hlt heq; omega
  | succ k ih =>
    intro v i hlt heq
    have hget : v.getD i 0 = v.get ⟨i, hlt⟩ := by
      rw [List.getD_eq_getElem v 0 hlt]
      simp
    have hdrop : v.drop i = v.get ⟨i, hlt⟩ :: v.drop (i + 1) := by
      rw [List.drop_eq_getElem_cons hlt]
      simp
    by_cases hend : v.length ≤ i + 1
    · have hk : k = 0 := by omega
      subst hk
      have hi1 : i + 1 = v.length := by omega
      simp only [runIter, iterNext, if_pos hend, hget, hdrop,
        List.drop_eq_nil_of_le (le_of_eq hi1.symm)]
    · have hlt2 : i + 1 < v.length := by omega
      simp only [runIter, iterNext, if_neg hend, hget, hdrop,
        ih v (i + 1) hlt2 (by omega)]

/-- A shuffle that permutes its input preserves length under iteration. -/
theorem iterate_shuffle_length (shuffle : List ℕ → List ℕ)
    (hshuf : ∀ l : List ℕ, (shuffle l).Perm l) (v : List ℕ) :
    ∀ k, (shuffle^[k] v).length = v.length := by
  intro k
  induction k with
  | zero => rfl
  | succ k ih =>
    rw [Function.iterate_succ_apply' shuffle k v, (hshuf _).length_eq, ih]

/-- Iterating a permuting shuffle yields a permutation of the start vector. -/
theorem iterate_shuffle_perm (shuffle : List ℕ → List ℕ)
    (hshuf : ∀ l : List ℕ, (shuffle l).Perm l) (v : List ℕ) :
    ∀ k, (shuffle^[k] v).Perm v := by
  intro k
  induction k with
  | zero => exact List.Perm.refl v
  | succ k ih =>
    rw [Function.iterate_succ_apply' shuffle k v]
    exact (hshuf _).trans ih

/-- After `e` complete epochs the iterator sits at cursor 0 over the
`(e+1)`-fold shuffle of the initial vector. -/
theorem iter_state_after_epochs (shuffle : List ℕ → List ℕ)
    (hshuf : ∀ l : List ℕ, (shuffle l).Perm l) (v : List ℕ) (hv : 0 < v.length) :
    ∀ e : ℕ, (runIter shuffle (mkIter shuffle v) (e * v.length)).2 =
      ⟨shuffle^[e + 1] v, 0⟩ := by
  intro e
  induction e with
  | zero => simp [runIter, mkIter]
  | succ e ih =>
    have hm : (e + 1) * v.length = e * v.length + v.length := by ring
    rw [hm, runIter_add shuffle (e * v.length) v.length (mkIter shuffle v), ih]
    have hwlen : (shuffle^[e + 1] v).length = v.length :=
      iterate_shuffle_length shuffle hshuf v (e + 1)
    rw [runIter_epoch shuffle v.length (shuffle^[e + 1] v) 0 (by omega) (by omega)]
    rw [← Function.iterate_succ_apply' shuffle (e + 1) v]

/-- C3: with any epoch shuffle that permutes its input and a positive camera
count, every window of `numCameras` consecutive selections aligned to an
epoch boundary is a permutation of the index set `0..numCameras-1`; in
particular every camera index appears exactly once in each such window
before any index repeats. -/
theorem infiniteRandomIterator_epoch_permutation (shuffle : List ℕ → List ℕ)
    (numCameras : ℕ) (hshuf : ∀ l : List ℕ, (shuffle l).Perm l)
    (hn : 0 < numCameras) :
    ∀ e : ℕ,
      ((camSelections shuffle (List.range numCameras)
          (e * numCameras + numCameras)).drop (e * numCameras)).Perm
        (List.range numCameras) ∧
      ∀ j, j < numCameras →
        ((camSelections shuffle (List.range numCameras)
            (e * numCameras + numCameras)).drop (e * numCameras)).count j = 1 := by
  intro e
  have hlenr : (List.range numCameras).length = numCameras := List.length_range numCameras
  have hstate := iter_state_after_epochs shuffle hshuf (List.range numCameras)
    (by rw [hlenr]; exact hn) e
  rw [hlenr] at hstate
  have hwlen : (shuffle^[e + 1] (List.range numCameras)).length = numCameras := by
    rw [iterate_shuffle_length shuffle hshuf _ (e + 1), hlenr]
  have hAlen : (runIter shuffle (mkIter shuffle (List.range numCameras))
      (e * numCameras)).1.length = e * numCameras := runIter_length shuffle _ _
  have hwin : (camSelections shuffle (List.range numCameras)
      (e * numCameras + numCameras)).drop (e * numCameras) =
      shuffle^[e + 1] (List.range numCameras) := by
    unfold camSelections
    rw [runIter_add shuffle (e * numCameras) numCameras
      (mkIter shuffle (List.range numCameras)), hstate]
    rw [runIter_epoch shuffle numCameras (shuffle^[e + 1] (List.range numCameras)) 0
      (by omega) (by omega)]
    simp only [List.drop_zero]
    generalize hA : (runIter shuffle (mkIter shuffle (List.range numCameras))
      (e * numCameras)).1 = A at hAlen ⊢
    rw [← hAlen, List.drop_left]
  rw [hwin]
  have hperm : (shuffle^[e + 1] (List.range numCameras)).Perm (List.range numCameras) :=
    iterate_shuffle_perm shuffle hshuf (List.range numCameras) (e + 1)
  refine ⟨hperm, fun j hj => ?_⟩
  rw [hperm.count_eq]
  exact List.count_eq_one_of_mem (List.nodup_range numCameras) (List.mem_range.mpr hj)

/-- C3 witness: with the concrete shuffle `List.reverse` over two cameras,
the fourth epoch window (selections 6 and 7) is a permutation of `{0, 1}`
with each index selected exactly once. -/
theorem infiniteRandomIterator_epoch_permutation_witness :
    0 < 2 ∧
    ((camSelections List.reverse (List.range 2) (3 * 2 + 2)).drop (3 * 2)).Perm
      (List.range 2) ∧
    ((camSelections List.reverse (List.range 2) (3 * 2 + 2)).drop (3 * 2)).count 0 = 1 := by
  have h := infiniteRandomIterator_epoch_permutation List.reverse 2
    (fun l => l.reverse_perm) (by norm_num) 3
  exact ⟨by norm_num, h.1, h.2 0 (by norm_num)⟩

/-! ## The --fixed flag and refinement cadence (src/opensplat.cpp lines 62, 79, 82)

`main` computes
`refineEvery = (fixedPoints) ? 2 * numIters : cli value` and
`stopSplitAt = (fixedPoints) ? 1 : cli value`.  The refinement gate itself
sits in `Model::afterTrain` (model.cpp), which is not among the provided
sources; it is modelled from the spec: DensityController "runs only when
`warmupLength < step ≤ stopSplitAt` and `step mod refineEvery == 0`"
(§4.5), and the primitive set "is mutated in place only by
DensityController (structural changes)" (§3 Lifecycle), so the primitive
count changes only on steps where the gate fires. -/

/-- Embeds `const int refineEvery = (fixedPoints)? 2 * numIters :
result["refine-every"].as<int>();` (src/opensplat.cpp line 79). -/
def refineEveryOf (fixedPoints : Bool) (numIters cliRefineEvery : ℕ) : ℕ :=
  if fixedPoints then 2 * numIters else cliRefineEvery

/-- Embeds `const int stopSplitAt = (fixedPoints) ? 1 :
result["stop-split-at"].as<int>();` (src/opensplat.cpp line 82). -/
def stopSplitAtOf (fixedPoints : Bool) (cliStopSplitAt : ℕ) : ℕ :=
  if fixedPoints then 1 else cliStopSplitAt

/-- Modelled from the spec: the DensityController gate — a refine cycle runs
at `step` exactly when `step mod refineEvery == 0`, `warmupLength < step`
and `step ≤ stopSplitAt` (§4.5; `Model::afterTrain` in model.cpp is not in
src/). -/
def refineRuns (refineEveryV warmupLength stopSplitAtV step : ℕ) : Bool :=
  step % refineEveryV == 0 && decide (warmupLength < step) && decide (step ≤ stopSplitAtV)

/-- The primitive count after running steps `1..numIters`: only steps where
the refine gate fires can change it, through an arbitrary refine outcome
`refineResult` (clone/split/prune combined). -/
def primitiveCountAfter (refineEveryV warmupLength stopSplitAtV : ℕ)
    (refineResult : ℕ → ℕ → ℕ) (n0 numIters : ℕ) : ℕ :=
  (List.range numIters).foldl
    (fun n k =>
      if refineRuns refineEveryV warmupLength stopSplitAtV (k + 1) then refineResult n (k + 1)
      else n) n0

/-- A fold whose update never fires returns its start value. -/
theorem foldl_no_refine (refineEveryV warmupLength stopSplitAtV : ℕ)
    (refineResult : ℕ → ℕ → ℕ) :
    ∀ (l : List ℕ) (n0 : ℕ),
      (∀ k ∈ l, refineRuns refineEveryV warmupLength stopSplitAtV (k + 1) = false) →
      l.foldl (fun n k =>
        if refineRuns refineEveryV warmupLength stopSplitAtV (k + 1) then refineResult n (k + 1)
        else n) n0 = n0 := by
  intro l
  induction l with
  | nil => intro n0 _; rfl
  | cons k rest ih =>
    intro n0 hall
    have hk : refineRuns refineEveryV warmupLength stopSplitAtV (k + 1) = false :=
      hall k (List.mem_cons_self k rest)
    simp only [List.foldl_cons, hk, if_false, Bool.false_eq_true]
    exact ih n0 (fun j hj => hall j (List.mem_cons_of_mem k hj))

/-- C10: under `--fixed`, `refineEvery` becomes `2 * numIters` and
`stopSplitAt` becomes 1; no step in `1..numIters` is divisible by
`2 * numIters`, so the refine gate never fires and the primitive count
after all `numIters` steps equals the initial point count, whatever the
refine outcome function and the warmup length would have been. -/
theorem fixed_flag_freezes_primitive_count (numIters cliRefineEvery cliStopSplitAt
    warmupLength n0 : ℕ) (refineResult : ℕ → ℕ → ℕ) (hpos : 1 ≤ numIters) :
    refineEveryOf true numIters cliRefineEvery = 2 * numIters ∧
    stopSplitAtOf true cliStopSplitAt = 1 ∧
    (∀ step, 1 ≤ step → step ≤ numIters →
      refineRuns (refineEveryOf true numIters cliRefineEvery) warmupLength
        (stopSplitAtOf true cliStopSplitAt) step = false) ∧
    primitiveCountAfter (refineEveryOf true numIters cliRefineEvery) warmupLength
      (stopSplitAtOf true cliStopSplitAt) refineResult n0 numIters = n0 := by
  have hgate : ∀ step, 1 ≤ step → step ≤ numIters →
      refineRuns (refineEveryOf true numIters cliRefineEvery) warmupLength
        (stopSplitAtOf true cliStopSplitAt) step = false := by
    intro step h1 h2
    have hmod : step % (2 * numIters) = step := Nat.mod_eq_of_lt (by omega)
    have hz : step ≠ 0 := by omega
    have hne : (step % (2 * numIters) == 0) = false := by
      simp [hmod, hz]
    simp [refineRuns, refineEveryOf, hne]
  refine ⟨rfl, rfl, hgate, ?_⟩
  unfold primitiveCountAfter
  exact foldl_no_refine _ _ _ refineResult (List.range numIters) n0
    (fun k hk => hgate (k + 1) (by omega)
      (by have hk2 := List.mem_range.mp hk; omega))

/-- C10 witness: with 3 iterations and an aggressive refine outcome that
would double the count, the `--fixed` configuration keeps the primitive
count at its initial value 10. -/
theorem fixed_flag_freezes_primitive_count_witness :
    1 ≤ 3 ∧
    primitiveCountAfter (refineEveryOf true 3 100) 0 (stopSplitAtOf true 15000)
      (fun n _ => 2 * n) 10 3 = 10 := by
  exact ⟨by norm_num,
    (fixed_flag_freezes_primitive_count 3 100 15000 0 10 (fun n _ => 2 * n)
      (by norm_num)).2.2.2⟩

/-! ## Input loading (src/input_data.cpp, inputDataFromX, lines 106-116, and
src/opensplat.cpp, ns::inputDataFromNerfStudio, lines 437-497)

The filesystem tests that drive the project-format dispatch are embedded
as the three existence flags `inputDataFromX` actually consults.  The
colmap loader (`cm::inputDataFromColmap`, colmap.cpp) is not among the
provided sources and is irrelevant to the claims, so its result is passed
in as `colmapResult`.  Of the nerfstudio loader only the fields the
fatal-error paths read are retained: the parsed `ply_file_path` and the
frames that become cameras. -/

/-- Which project markers exist under the given root, as tested by
`inputDataFromX`: `transforms.json`, `sparse/`, `cameras.bin`. -/
structure ProjectFS where
  hasTransformsJson : Bool
  hasSparse : Bool
  hasCamerasBin : Bool
deriving DecidableEq, Repr

/-- The parsed nerfstudio `transforms.json`, reduced to the fields the
load-time error paths and camera construction read. -/
structure TransformsM where
  plyFilePath : String
  frames : List Cam
deriving DecidableEq, Repr

/-- Embedding of `ns::inputDataFromNerfStudio` (src/opensplat.cpp lines
437-497) restricted to its load-time control flow: after parsing, an empty
`ply_file_path` with no `--mesh-file` argument throws; otherwise the
cameras are built from the frames. -/
def inputDataFromNerfStudio (t : TransformsM) (meshInput : String) :
    Except String InputDataM :=
  if t.plyFilePath.isEmpty && meshInput.isEmpty then
    Except.error ("ply_file_path is empty (and no mesh input)")
  else Except.ok ⟨t.frames⟩

/-- Embedding of `inputDataFromX` (src/input_data.cpp lines 106-116): a
nerfstudio manifest takes precedence, a colmap reconstruction
(`sparse/` or `cameras.bin`) comes second, and a root with neither
throws the invalid-project error. -/
def inputDataFromX (proj : ProjectFS) (t : TransformsM)
    (colmapResult : Except String InputDataM) (meshInput : String) :
    Except String InputDataM :=
  if proj.hasTransformsJson then inputDataFromNerfStudio t meshInput
  else if proj.hasSparse || proj.hasCamerasBin then colmapResult
  else Except.error
    ("Invalid project folder (must be either a colmap or nerfstudio project folder)")

/-- C8: a project root with neither a nerfstudio manifest nor a colmap
reconstruction makes input loading throw the invalid-project error, and a
nerfstudio project whose `ply_file_path` is empty with no mesh input file
throws the empty-ply error; in either case the error propagates through
`main` unmodified — no recovery — and zero training steps execute. -/
theorem inputDataFromX_fatal_before_training (proj : ProjectFS) (t : TransformsM)
    (colmapResult : Except String InputDataM) (meshInput : String)
    (randVal numIters : ℕ) (validate : Bool) (valImage : String) :
    (proj.hasTransformsJson = false → proj.hasSparse = false →
      proj.hasCamerasBin = false →
      inputDataFromX proj t colmapResult meshInput =
        Except.error
          ("Invalid project folder (must be either a colmap or nerfstudio project folder)") ∧
      trainStepsExecuted (mainRun (inputDataFromX proj t colmapResult meshInput)
        randVal validate valImage numIters) = 0) ∧
    (proj.hasTransformsJson = true → t.plyFilePath = "" → meshInput = "" →
      inputDataFromX proj t colmapResult meshInput =
        Except.error ("ply_file_path is empty (and no mesh input)") ∧
      trainStepsExecuted (mainRun (inputDataFromX proj t colmapResult meshInput)
        randVal validate valImage numIters) = 0) := by
  constructor
  · intro h1 h2 h3
    have herr : inputDataFromX proj t colmapResult meshInput =
        Except.error
          ("Invalid project folder (must be either a colmap or nerfstudio project folder)") := by
      simp [inputDataFromX, h1, h2, h3]
    exact ⟨herr, by simp [mainRun, herr, trainStepsExecuted]⟩
  · intro h1 h2 h3
    have herr : inputDataFromX proj t colmapResult meshInput =
        Except.error ("ply_file_path is empty (and no mesh input)") := by
      simp [inputDataFromX, inputDataFromNerfStudio, h1, h2, h3, String.isEmpty]
    exact ⟨herr, by simp [mainRun, herr, trainStepsExecuted]⟩

/-- C8 witness: an empty project root aborts with the invalid-project
message, and a nerfstudio project with empty `ply_file_path` and no mesh
file aborts with the empty-ply message; both runs execute zero steps. -/
theorem inputDataFromX_fatal_before_training_witness :
    (inputDataFromX ⟨false, false, false⟩ ⟨"p.ply", []⟩ (Except.ok ⟨[]⟩) "" =
      Except.error
        ("Invalid project folder (must be either a colmap or nerfstudio project folder)") ∧
     trainStepsExecuted (mainRun (inputDataFromX ⟨false, false, false⟩ ⟨"p.ply", []⟩
       (Except.ok ⟨[]⟩) "") 0 false ("random") 7) = 0) ∧
    (inputDataFromX ⟨true, false, false⟩ ⟨"", [Cam.mk ("a/img1.png")]⟩ (Except.ok ⟨[]⟩) "" =
      Except.error ("ply_file_path is empty (and no mesh input)") ∧
     trainStepsExecuted (mainRun (inputDataFromX ⟨true, false, false⟩
       ⟨"", [Cam.mk ("a/img1.png")]⟩ (Except.ok ⟨[]⟩) "") 0 false ("random") 7) = 0) := by
  constructor
  · exact (inputDataFromX_fatal_before_training ⟨false, false, false⟩ ⟨"p.ply", []⟩
      (Except.ok ⟨[]⟩) "" 0 7 false ("random")).1 rfl rfl rfl
  · exact (inputDataFromX_fatal_before_training ⟨true, false, false⟩
      ⟨"", [Cam.mk ("a/img1.png")]⟩ (Except.ok ⟨[]⟩) "" 0 7 false ("random")).2 rfl rfl rfl

end OpenSplat
